import Mathlib

/-!
Verification of the core services of the "ads" WhatsApp campaign
broadcaster: the anti-spam rate guard (`services/antiSpamService.js`),
the broadcast dispatcher (`broadcastAd` in `services/whatsappService.js`
and `executeAd` in the scheduler service), the session lifecycle
(`connectUser` / `disconnectUser`), and the campaign scheduler
(`scheduleAd`, `validateSchedule`, `getNextExecutionTime`).

Time is modelled in whole minutes since an epoch (the JS code keys its
rate windows on `moment().startOf('hour')`, so minute granularity is
enough for every property of interest).  Mutable `Map`s become
association lists, and each method becomes a pure function from state
to state, returning the same result value the JS method returns.
-/

namespace Ads

/-! ### Association-list maps (the JS `Map` objects) -/

def alookup {α β : Type} [DecidableEq α] (k : α) : List (α × β) → Option β
  | [] => none
  | (k', v) :: rest => if k = k' then some v else alookup k rest

def aset {α β : Type} [DecidableEq α] (k : α) (v : β) : List (α × β) → List (α × β)
  | [] => [(k, v)]
  | (k', v') :: rest => if k = k' then (k, v) :: rest else (k', v') :: aset k v rest

def aremove {α β : Type} [DecidableEq α] (k : α) : List (α × β) → List (α × β)
  | [] => []
  | (k', v') :: rest => if k' = k then aremove k rest else (k', v') :: aremove k rest

/-! ### Anti-spam service (`services/antiSpamService.js`)

`now` is the current time in minutes.  The JS code keys `userActivity`
on `` `${userId}-${currentHour}` `` with
`currentHour = moment().startOf('hour')`; here the hour bucket is
`now / 60`.  `moment().diff(.., 'minutes')` becomes `now - _` and
`moment().isAfter(..)` becomes strict `<` on minutes. -/

structure SpamSettings where
  enabled : Bool
  maxMessagesPerHour : Nat
  cooldownMinutes : Nat
  deriving DecidableEq, Repr

/-- One entry of `this.userActivity`: `count`, `groups` (a `Set`),
`firstMessage`, and the `successful` / `failed` sub-counters. -/
structure Activity where
  count : Nat
  groups : List String
  firstMessage : Nat
  successful : Nat
  failed : Nat
  deriving DecidableEq, Repr

/-- One entry of `this.blockedUsers`. -/
structure BlockRecord where
  blockedAt : Nat
  unblockTime : Nat
  deriving DecidableEq, Repr

/-- The mutable state of `AntiSpamService`: the `userActivity` map keyed
by `(userId, hourBucket)` and the `blockedUsers` map keyed by `userId`. -/
structure SpamState where
  userActivity : List ((String × Nat) × Activity)
  blockedUsers : List (String × BlockRecord)
  deriving DecidableEq, Repr

def emptySpamState : SpamState := ⟨[], []⟩

def freshActivity (now : Nat) : Activity := ⟨0, [], now, 0, 0⟩

/-- `blockUser(userId, minutes)`: overwrite the block record with
`unblockTime = now + minutes`. -/
def blockUser (st : SpamState) (now : Nat) (userId : String) (minutes : Nat) : SpamState :=
  { st with blockedUsers := aset userId ⟨now, now + minutes⟩ st.blockedUsers }

/-- `isUserBlocked(userId)`: returns whether a live block exists; an
expired record (`now` strictly after `unblockTime`) is deleted lazily. -/
def isUserBlocked (st : SpamState) (now : Nat) (userId : String) : Bool × SpamState :=
  match alookup userId st.blockedUsers with
  | none => (false, st)
  | some b =>
    if b.unblockTime < now then
      (false, { st with blockedUsers := aremove userId st.blockedUsers })
    else
      (true, st)

inductive CheckResult where
  | allowed
  | blockedRes (unblockTime : Nat)
  | rateLimit
  | duplicateGroup
  deriving DecidableEq, Repr

/-- The `if (!this.userActivity.has(userKey)) this.userActivity.set(userKey, {...})`
pattern shared by `canSendMessage` and `recordMessageSent`. -/
def ensureActivity (st : SpamState) (key : String × Nat) (now : Nat) : SpamState :=
  if alookup key st.userActivity = none then
    { st with userActivity := aset key (freshActivity now) st.userActivity }
  else st

/-- `canSendMessage(userId, groupId)`.  Returns the admission decision
together with the state after the call (the JS method mutates the
activity map, the blocked map, or both). -/
def canSendMessage (settings : SpamSettings) (st : SpamState) (now : Nat)
    (userId groupId : String) : CheckResult × SpamState :=
  if settings.enabled = false then (.allowed, st)
  else
    let p := isUserBlocked st now userId
    if p.1 then
      (.blockedRes (((alookup userId p.2.blockedUsers).map (·.unblockTime)).getD 0), p.2)
    else
      let key := (userId, now / 60)
      let st2 := ensureActivity p.2 key now
      let a := (alookup key st2.userActivity).getD (freshActivity now)
      if settings.maxMessagesPerHour ≤ a.count then
        (.rateLimit, blockUser st2 now userId settings.cooldownMinutes)
      else if groupId ∈ a.groups ∧ 0 < a.count ∧ now - a.firstMessage < 5 then
        (.duplicateGroup, st2)
      else
        (.allowed, st2)

/-- `recordMessageSent(userId, groupId, success)`: increments the
current hour bucket's counter and sub-counters regardless of outcome.
(The `updateAntiSpamStats` database write is outside this model.) -/
def recordMessageSent (st : SpamState) (now : Nat) (userId groupId : String)
    (success : Bool) : SpamState :=
  let key := (userId, now / 60)
  let st1 := ensureActivity st key now
  let a := (alookup key st1.userActivity).getD (freshActivity now)
  let a' : Activity :=
    { count := a.count + 1
      groups := if groupId ∈ a.groups then a.groups else groupId :: a.groups
      firstMessage := a.firstMessage
      successful := a.successful + (if success then 1 else 0)
      failed := a.failed + (if success then 0 else 1) }
  { st1 with userActivity := aset key a' st1.userActivity }

/-- `getUserActivity(userId)`: the current hour bucket's activity, or a
zeroed record when absent (no mutation). -/
def getUserActivity (st : SpamState) (now : Nat) (userId : String) : Activity :=
  (alookup (userId, now / 60) st.userActivity).getD ⟨0, [], 0, 0, 0⟩

inductive BroadcastValidation where
  | valid
  | userBlocked
  | rateLimitV (maxGroups : Int)
  | duplicateGroups (dups : List String)
  deriving DecidableEq, Repr

/-- `validateBroadcast(userId, groups)`: the batch pre-flight check. -/
def validateBroadcast (settings : SpamSettings) (st : SpamState) (now : Nat)
    (userId : String) (groups : List String) : BroadcastValidation × SpamState :=
  if settings.enabled = false then (.valid, st)
  else
    let p := isUserBlocked st now userId
    if p.1 then (.userBlocked, p.2)
    else
      let a := getUserActivity p.2 now userId
      let remaining : Int := (settings.maxMessagesPerHour : Int) - (a.count : Int)
      if remaining < (groups.length : Int) then (.rateLimitV remaining, p.2)
      else
        let dups := groups.filter (fun g => g ∈ a.groups)
        if dups ≠ [] then (.duplicateGroups dups, p.2)
        else (.valid, p.2)

/-! ### Guarded send traces

A caller that honors the rate guard runs, for each attempt, a
`canSendMessage` check and performs + records the send only when the
check returned `allowed` (claim C1's hypothesis).  `runGuarded` executes
such a trace and also returns the log of the attempts that were
admitted and recorded, so that rolling-window counts can be stated. -/

structure SendAttempt where
  t : Nat
  user : String
  group : String
  success : Bool
  deriving DecidableEq, Repr

def stepAttempt (settings : SpamSettings) (acc : SpamState × List SendAttempt)
    (e : SendAttempt) : SpamState × List SendAttempt :=
  let p := canSendMessage settings acc.1 e.t e.user e.group
  if p.1 = .allowed then
    (recordMessageSent p.2 e.t e.user e.group e.success, acc.2 ++ [e])
  else
    (p.2, acc.2)

def runGuarded (settings : SpamSettings) (acc : SpamState × List SendAttempt) :
    List SendAttempt → SpamState × List SendAttempt
  | [] => acc
  | e :: rest => runGuarded settings (stepAttempt settings acc e) rest

/-- Number of recorded attempts of `u` falling in the rolling 60-minute
window `[t0, t0 + 60)`. -/
def recordedInWindow (log : List SendAttempt) (u : String) (t0 : Nat) : Nat :=
  (log.filter (fun e => e.user = u ∧ t0 ≤ e.t ∧ e.t < t0 + 60)).length

/-- The counter of the fixed hour bucket `b` of user `u` (0 if absent). -/
def bucketCount (st : SpamState) (u : String) (b : Nat) : Nat :=
  ((alookup (u, b) st.userActivity).map (·.count)).getD 0

/-- Four admitted-and-recorded attempts of one tenant straddling the
boundary of the hour buckets `0` and `1` (minutes 59 and 60). -/
def c1trace : List SendAttempt :=
  [⟨59, "t", "g1", true⟩, ⟨59, "t", "g2", true⟩, ⟨60, "t", "g3", true⟩, ⟨60, "t", "g4", true⟩]

/-- All hour-bucket counters are at most `max`. -/
def CountInv (max : Nat) (st : SpamState) : Prop :=
  ∀ k a, alookup k st.userActivity = some a → a.count ≤ max

/-! ### Broadcast dispatcher
(`broadcastAd` of `services/whatsappService.js`, `executeAd` of the
scheduler service)

`sendAd` resolves each attempt to `{success:true}` or
`{success:false, error}` (it catches its own errors); the environment is
abstracted as `outcome : Nat → SendOutcome`, the result of the i-th
`sendAd` call of the dispatch.  The dispatcher's externally visible
actions are logged as `DspCall`s; the constructors `rateValidateCall` /
`rateRecordCall` stand for calls into the anti-spam service
(`validateBroadcast` / `recordMessageSent`), so that claims about the
dispatcher consulting the rate guard can be stated. -/

inductive SendOutcome where
  | ok
  | fail (err : String)
  deriving DecidableEq, Repr

def SendOutcome.isOk : SendOutcome → Bool
  | .ok => true
  | .fail _ => false

/-- The `results` object built by `broadcastAd`. -/
structure DispatchResult where
  total : Nat
  sent : Nat
  failed : Nat
  errors : List (String × String)
  deriving DecidableEq, Repr

inductive DspCall where
  | sendAttempt (groupId : String)
  | pacingDelay
  | rateValidateCall
  | rateRecordCall (groupId : String)
  deriving DecidableEq, Repr

def isRateGuardCall : DspCall → Bool
  | .rateValidateCall => true
  | .rateRecordCall _ => true
  | _ => false

def sendCalls (calls : List DspCall) : List String :=
  calls.filterMap fun c =>
    match c with
    | .sendAttempt g => some g
    | _ => none

/-- The `for (const groupId of ad.groups)` loop of `broadcastAd`: one
`sendAd` call per group, one counter incremented per iteration, a fixed
2-second pacing delay after each attempt. -/
def broadcastLoop (outcome : Nat → SendOutcome) :
    Nat → List String → DispatchResult → DispatchResult × List DspCall
  | _, [], acc => (acc, [])
  | i, g :: rest, acc =>
    let acc' :=
      match outcome i with
      | .ok => { acc with sent := acc.sent + 1 }
      | .fail e => { acc with failed := acc.failed + 1, errors := acc.errors ++ [(g, e)] }
    let r := broadcastLoop outcome (i + 1) rest acc'
    (r.1, .sendAttempt g :: .pacingDelay :: r.2)

/-- `broadcastAd(userId, ad)`: throws `'WhatsApp não conectado'` when
`isUserConnected` is false, otherwise runs the per-group loop starting
from `results = {total: ad.groups.length, sent: 0, failed: 0, errors: []}`. -/
def broadcastAd (connected : Bool) (groups : List String) (outcome : Nat → SendOutcome) :
    Except String (DispatchResult × List DspCall) :=
  if connected = false then .error "WhatsApp não conectado"
  else .ok (broadcastLoop outcome 0 groups ⟨groups.length, 0, 0, []⟩)

/-- The campaign's running `stats` record. -/
structure AdStats where
  sent : Nat
  failed : Nat
  lastSent : Option Nat
  deriving DecidableEq, Repr

/-- `executeAd(ad)` of the scheduler service: if the user is not
connected, record all targets as failed in the campaign stats and
return (without any result value and without any send attempt);
otherwise run `broadcastAd` and fold its result into the stats.  The
`.error` branch mirrors `executeAd`'s `catch`, which also records all
targets as failed. -/
def executeAd (connected : Bool) (now : Nat) (groups : List String)
    (outcome : Nat → SendOutcome) (stats : AdStats) :
    Option DispatchResult × AdStats × List DspCall :=
  if connected = false then
    (none, ⟨stats.sent, stats.failed + groups.length, some now⟩, [])
  else
    match broadcastAd connected groups outcome with
    | .ok (r, calls) => (some r, ⟨stats.sent + r.sent, stats.failed + r.failed, some now⟩, calls)
    | .error _ => (none, ⟨stats.sent, stats.failed + groups.length, some now⟩, [])

/-- How many of the attempt outcomes at indices `i, i+1, …` along `gs`
are successes. -/
def okCount (outcome : Nat → SendOutcome) : Nat → List String → Nat
  | _, [] => 0
  | i, _ :: rest => (if (outcome i).isOk then 1 else 0) + okCount outcome (i + 1) rest

/-- How many of the attempt outcomes at indices `i, i+1, …` along `gs`
are failures. -/
def failCount (outcome : Nat → SendOutcome) : Nat → List String → Nat
  | _, [] => 0
  | i, _ :: rest => (if (outcome i).isOk then 0 else 1) + failCount outcome (i + 1) rest

/-! ### Session lifecycle (`services/whatsappService.js`)

`connections : Map<userId, {sock, connected}>` becomes a map to the
`connected` flag; a key being present means a socket object exists (and
its event handlers are attached).  A reconnection scheduled by
`setTimeout(() => this.connectUser(userId), reconnectDelay)` is an entry
of `pending`.  `connectCalls` logs every `connectUser` invocation so
that "no reconnection attempt is made" can be stated.  Status codes are
Baileys's `DisconnectReason.loggedOut = 401` and `forbidden = 403`. -/

def loggedOut : Nat := 401

def forbidden : Nat := 403

structure SessState where
  connections : List (String × Bool)
  pending : List String
  connectCalls : List String
  deriving DecidableEq, Repr

/-- Events driving the session lifecycle: an explicit `connectUser`
call, the provider's `connection.update` open / close events, and the
firing of a scheduled reconnect timer. -/
inductive SessEvent where
  | connectReq (u : String)
  | openEvt (u : String)
  | closeEvt (u : String) (statusCode : Nat)
  | fireReconnect (u : String)
  deriving DecidableEq, Repr

/-- `connectUser(userId)`: a no-op when already connected; otherwise the
stale entry is dropped and a fresh not-yet-connected entry is created. -/
def connectUser (st : SessState) (u : String) : SessState :=
  let st' : SessState := { st with connectCalls := st.connectCalls ++ [u] }
  match alookup u st'.connections with
  | some true => st'
  | _ => { st' with connections := aset u false st'.connections }

/-- The `connection === 'open'` handler: `connections.set(userId, {sock, connected: true})`. -/
def handleOpen (st : SessState) (u : String) : SessState :=
  { st with connections := aset u true st.connections }

/-- The `connection === 'close'` handler: delete the connection and, if
`statusCode !== loggedOut && statusCode !== forbidden`, schedule a
reconnect via `setTimeout`. -/
def handleClose (st : SessState) (u : String) (statusCode : Nat) : SessState :=
  let st1 : SessState := { st with connections := aremove u st.connections }
  if statusCode ≠ loggedOut ∧ statusCode ≠ forbidden then
    { st1 with pending := st1.pending ++ [u] }
  else st1

/-- `disconnectUser(userId)`: when a connection exists, `sock.logout()`
makes the provider emit `close` with `loggedOut`, and the method then
deletes the connection entry itself. -/
def disconnectUser (st : SessState) (u : String) : SessState :=
  match alookup u st.connections with
  | none => st
  | some _ =>
    let st1 := handleClose st u loggedOut
    { st1 with connections := aremove u st1.connections }

def stepSess (st : SessState) : SessEvent → SessState
  | .connectReq u => connectUser st u
  | .openEvt u => handleOpen st u
  | .closeEvt u code => handleClose st u code
  | .fireReconnect u =>
    if u ∈ st.pending then connectUser { st with pending := st.pending.erase u } u
    else st

def runSess (st : SessState) : List SessEvent → SessState
  | [] => st
  | e :: rest => runSess (stepSess st e) rest

/-- `isUserConnected(userId)` (the state `getConnectionState` reports). -/
def isUserConnected (st : SessState) (u : String) : Bool :=
  (alookup u st.connections).getD false

/-- Which events the real system can produce in a given state: open and
close events come from a socket's handlers, so they require a tracked
connection; a reconnect timer only fires if it was scheduled. -/
def eventCanOccur (st : SessState) : SessEvent → Prop
  | .connectReq _ => True
  | .openEvt u => alookup u st.connections ≠ none
  | .closeEvt u _ => alookup u st.connections ≠ none
  | .fireReconnect u => u ∈ st.pending

def ValidTrace : SessState → List SessEvent → Prop
  | _, [] => True
  | st, e :: rest => eventCanOccur st e ∧ ValidTrace (stepSess st e) rest

instance : DecidablePred (fun e => eventCanOccur sessSt e) := by
  intro e
  cases e <;> simp only [eventCanOccur] <;> infer_instance

instance validTraceDecidable (st : SessState) (tr : List SessEvent) :
    Decidable (ValidTrace st tr) := by
  induction tr generalizing st with
  | nil => exact .isTrue trivial
  | cons e rest ih =>
    have : Decidable (eventCanOccur st e ∧ ValidTrace (stepSess st e) rest) := by
      have := ih (stepSess st e)
      infer_instance
    exact this

/-! ### Calendar and campaign scheduler (`services/schedulerService.js`)

The scheduler's timezone is the fixed constant `'America/Sao_Paulo'`
(UTC-3, no daylight saving since 2019), so wall-clock arithmetic and
instant arithmetic coincide; a `moment` instant is modelled as the
minute count `toMinutes` of its civil representation, and
`a.isBefore(b)` is `toMinutes a < toMinutes b`.  `moment().add(1, unit)`
adds one calendar unit, clamping the day-of-month to the last valid day
when the target month (or a non-leap February after `+1 year`) is
shorter. -/

def isLeap (y : Nat) : Bool := (y % 4 = 0 && y % 100 ≠ 0) || y % 400 = 0

def daysInMonthB (leap : Bool) (m : Nat) : Nat :=
  if m = 2 then (if leap then 29 else 28)
  else if m = 4 ∨ m = 6 ∨ m = 9 ∨ m = 11 then 30
  else 31

def daysInMonth (y m : Nat) : Nat := daysInMonthB (isLeap y) m

def daysInYear (y : Nat) : Nat := if isLeap y then 366 else 365

def daysBeforeMonthB (leap : Bool) : Nat → Nat
  | 0 => 0
  | 1 => 0
  | m + 1 => daysBeforeMonthB leap m + daysInMonthB leap m

/-- Number of leap years in `[0, y)` (closed form, so that dates around
2025 evaluate in constant time; `daysBeforeYear_succ` recovers the
recurrence `daysBeforeYear (y+1) = daysBeforeYear y + daysInYear y`). -/
def leapsBefore (y : Nat) : Nat := (y + 3) / 4 - (y + 99) / 100 + (y + 399) / 400

def daysBeforeYear (y : Nat) : Nat := 365 * y + leapsBefore y

structure DateTime where
  year : Nat
  month : Nat
  day : Nat
  hour : Nat
  minute : Nat
  deriving DecidableEq, Repr

/-- Days from the epoch (civil-from-date). -/
def toDays (d : DateTime) : Nat :=
  daysBeforeYear d.year + daysBeforeMonthB (isLeap d.year) d.month + (d.day - 1)

/-- The instant of a civil date-time, in minutes from the epoch (the
timezone offset is a global constant and drops out of every
comparison). -/
def toMinutes (d : DateTime) : Nat := (toDays d * 24 + d.hour) * 60 + d.minute

/-- What `moment.tz('YYYY-MM-DD HH:mm').isValid()` accepts. -/
def ValidDT (d : DateTime) : Prop :=
  1 ≤ d.month ∧ d.month ≤ 12 ∧ 1 ≤ d.day ∧ d.day ≤ daysInMonth d.year d.month ∧
    d.hour < 24 ∧ d.minute < 60

instance : DecidablePred ValidDT := by
  intro d
  unfold ValidDT
  infer_instance

/-- `.add(1, 'day')`. -/
def addDay (d : DateTime) : DateTime :=
  if d.day < daysInMonth d.year d.month then { d with day := d.day + 1 }
  else if d.month < 12 then { d with month := d.month + 1, day := 1 }
  else { d with year := d.year + 1, month := 1, day := 1 }

/-- `.add(1, 'week')` = seven days later. -/
def addWeek (d : DateTime) : DateTime :=
  addDay (addDay (addDay (addDay (addDay (addDay (addDay d))))))

/-- `.add(1, 'month')`, clamping the day to the target month's length. -/
def addMonth (d : DateTime) : DateTime :=
  if d.month < 12 then
    { d with month := d.month + 1, day := min d.day (daysInMonth d.year (d.month + 1)) }
  else
    { d with year := d.year + 1, month := 1, day := min d.day (daysInMonth (d.year + 1) 1) }

/-- `.add(1, 'year')`, clamping Feb 29 to Feb 28 on non-leap targets. -/
def addYear (d : DateTime) : DateTime :=
  { d with year := d.year + 1, day := min d.day (daysInMonth (d.year + 1) d.month) }

inductive RepeatKind where
  | once
  | daily
  | weekly
  | monthly
  | yearly
  deriving DecidableEq, Repr

/-- The one-unit advance of each recurrence kind (`once` is never
iterated; its entry is a placeholder). -/
def stepOf : RepeatKind → DateTime → DateTime
  | .daily => addDay
  | .weekly => addWeek
  | .monthly => addMonth
  | .yearly => addYear
  | .once => addDay

/-- The scheduler's `while (nextExecution.isBefore(now)) nextExecution.add(1, unit)`
loop.  The `fuel` argument only bounds the iteration count for
totality; `advanceWhileBefore_spec` shows that with any fuel of at
least `now` minutes the loop stops exactly at the first iterate that is
not before `now`. -/
def advanceWhileBefore (step : DateTime → DateTime) (now : Nat) :
    Nat → DateTime → DateTime
  | 0, d => d
  | fuel + 1, d => if toMinutes d < now then advanceWhileBefore step now fuel (step d) else d

/-- `getNextExecutionTime(adId)`, reduced to its date computation: from
the anchor `scheduleDate + scheduleTime`, advance one recurrence unit
at a time while still before `now`; for `once`, a past anchor yields
`null` ("já executado"). -/
def getNextExecutionTime (rep : RepeatKind) (anchor : DateTime) (now : Nat) :
    Option DateTime :=
  match rep with
  | .daily => some (advanceWhileBefore addDay now (now - toMinutes anchor + 1) anchor)
  | .weekly => some (advanceWhileBefore addWeek now (now - toMinutes anchor + 1) anchor)
  | .monthly => some (advanceWhileBefore addMonth now (now - toMinutes anchor + 1) anchor)
  | .yearly => some (advanceWhileBefore addYear now (now - toMinutes anchor + 1) anchor)
  | .once => if toMinutes anchor < now then none else some anchor

/-- `moment.tz(`${scheduleDate} ${scheduleTime}`, 'YYYY-MM-DD HH:mm', tz)`:
`none` when a field is missing or the combination is invalid. -/
def parseDateTime : Option (Nat × Nat × Nat) → Option (Nat × Nat) → Option DateTime
  | some (y, mo, da), some (h, mi) =>
    if ValidDT ⟨y, mo, da, h, mi⟩ then some ⟨y, mo, da, h, mi⟩ else none
  | _, _ => none

/-- One entry of the scheduler's `scheduledTasks` map (the cron task
handle itself is outside the model; `nextExecution` and `repeat` are
the stored fields this verification needs). -/
structure ScheduleEntry where
  nextExecution : DateTime
  rep : RepeatKind
  deriving DecidableEq, Repr

/-- How `scheduleAd` disposed of a registration request.  The JS method
returns `undefined` on every path; the non-`registered` labels mark its
three silent early returns (missing fields, `console.error` on invalid
date, `console.warn` on a past date). -/
inductive ScheduleOutcome where
  | registered
  | skippedMissing
  | skippedInvalid
  | skippedPast
  deriving DecidableEq, Repr

/-- `scheduleAd(ad)`: silently return on missing/invalid/past
schedules; otherwise cancel any previous timer for the ad and register
a new entry. -/
def scheduleAd (rep : RepeatKind) (scheduleDate : Option (Nat × Nat × Nat))
    (scheduleTime : Option (Nat × Nat)) (adId : String) (now : Nat)
    (tasks : List (String × ScheduleEntry)) :
    ScheduleOutcome × List (String × ScheduleEntry) :=
  match scheduleDate, scheduleTime with
  | none, _ => (.skippedMissing, tasks)
  | _, none => (.skippedMissing, tasks)
  | some d, some t =>
    match parseDateTime (some d) (some t) with
    | none => (.skippedInvalid, tasks)
    | some dt =>
      if toMinutes dt < now then (.skippedPast, tasks)
      else (.registered, aset adId ⟨dt, rep⟩ (aremove adId tasks))

/-- The result object of `validateSchedule(scheduleDate, scheduleTime)`. -/
inductive ValidationResult where
  | validSched
  | errMissing
  | errInvalid
  | errPast
  deriving DecidableEq, Repr

/-- `validateSchedule(scheduleDate, scheduleTime)`: the validation the
scheduler service exposes ('Data e hora são obrigatórias' /
'Data/hora inválida' / 'Não é possível agendar para o passado'). -/
def validateSchedule (scheduleDate : Option (Nat × Nat × Nat))
    (scheduleTime : Option (Nat × Nat)) (now : Nat) : ValidationResult :=
  match scheduleDate, scheduleTime with
  | none, _ => .errMissing
  | _, none => .errMissing
  | some d, some t =>
    match parseDateTime (some d) (some t) with
    | none => .errInvalid
    | some dt => if toMinutes dt < now then .errPast else .validSched

/-- Number of `connectUser` invocations for tenant `u` in a call log. -/
def countCalls (u : String) : List String → Nat
  | [] => 0
  | v :: rest => (if v = u then 1 else 0) + countCalls u rest

/-- After `disconnectUser(u)`, tenant `u` has no tracked connection and
no newly scheduled reconnect. -/
def SessInv (u : String) (st : SessState) : Prop :=
  alookup u st.connections = none ∧ u ∉ st.pending

/-! ## Theorems -/

theorem alookup_aset_self {α β : Type} [DecidableEq α] (k : α) (v : β) (m : List (α × β)) :
    alookup k (aset k v m) = some v := by
  induction m with
  | nil => simp [aset, alookup]
  | cons p rest ih =>
    by_cases h : k = p.1
    · simp [aset, h, alookup]
    · simp [aset, h, alookup, ih]

theorem alookup_aset_ne {α β : Type} [DecidableEq α] (k k' : α) (v : β) (m : List (α × β))
    (h : k' ≠ k) : alookup k' (aset k v m) = alookup k' m := by
  induction m with
  | nil => simp [aset, alookup, h]
  | cons p rest ih =>
    by_cases hk : k = p.1
    · subst hk
      simp [aset, alookup, h]
    · by_cases hk' : k' = p.1 <;> simp [aset, alookup, hk, hk', ih]

theorem alookup_aremove_self {α β : Type} [DecidableEq α] (k : α) (m : List (α × β)) :
    alookup k (aremove k m) = none := by
  induction m with
  | nil => simp [aremove, alookup]
  | cons p rest ih =>
    rcases p with ⟨k', v'⟩
    by_cases h : k' = k
    · simpa [aremove, h] using ih
    · have : k ≠ k' := fun hh => h hh.symm
      simp [aremove, h, alookup, this, ih]

theorem alookup_aremove_ne {α β : Type} [DecidableEq α] (k k' : α) (m : List (α × β))
    (h : k' ≠ k) : alookup k' (aremove k m) = alookup k' m := by
  induction m with
  | nil => simp [aremove]
  | cons p rest ih =>
    rcases p with ⟨k₀, v₀⟩
    by_cases hp : k₀ = k
    · subst hp
      simp [aremove, alookup, h, ih]
    · by_cases hk' : k' = k₀ <;> simp [aremove, hp, alookup, hk', ih]


theorem isUserBlocked_userActivity (st : SpamState) (now : Nat) (u : String) :
    ((isUserBlocked st now u).2).userActivity = st.userActivity := by
  unfold isUserBlocked
  cases alookup u st.blockedUsers with
  | none => rfl
  | some b =>
    by_cases h : b.unblockTime < now <;> simp [h]

theorem countInv_insert_fresh {max : Nat} {st : SpamState} (k : String × Nat) (now : Nat)
    (hInv : CountInv max st) :
    CountInv max { st with userActivity := aset k (freshActivity now) st.userActivity } := by
  intro k' a hk'
  by_cases hkk : k' = k
  · subst hkk
    rw [alookup_aset_self] at hk'
    cases hk'
    exact Nat.zero_le _
  · rw [alookup_aset_ne _ _ _ _ hkk] at hk'
    exact hInv k' a hk'

theorem ensureActivity_lookup (st : SpamState) (key : String × Nat) (now : Nat) :
    alookup key (ensureActivity st key now).userActivity =
      some ((alookup key st.userActivity).getD (freshActivity now)) := by
  unfold ensureActivity
  rcases h : alookup key st.userActivity with _ | a
  · simp [h, alookup_aset_self]
  · simp [h]

theorem ensureActivity_of_some {st : SpamState} {key : String × Nat} {now : Nat} {a : Activity}
    (h : alookup key st.userActivity = some a) : ensureActivity st key now = st := by
  unfold ensureActivity
  simp [h]

theorem ensureActivity_inv {max : Nat} {st : SpamState} (key : String × Nat) (now : Nat)
    (hInv : CountInv max st) : CountInv max (ensureActivity st key now) := by
  unfold ensureActivity
  split
  · exact countInv_insert_fresh key now hInv
  · exact hInv

theorem canSendMessage_inv {settings : SpamSettings} {st st' : SpamState} {now : Nat}
    {u g : String} {r : CheckResult}
    (hc : canSendMessage settings st now u g = (r, st'))
    (hInv : CountInv settings.maxMessagesPerHour st) :
    CountInv settings.maxMessagesPerHour st' := by
  have hs : st' = (canSendMessage settings st now u g).2 := by rw [hc]
  subst hs
  have hInv1 : CountInv settings.maxMessagesPerHour (isUserBlocked st now u).2 := by
    intro k a hk
    exact hInv k a ((isUserBlocked_userActivity st now u) ▸ hk)
  have hInvE : CountInv settings.maxMessagesPerHour
      (ensureActivity (isUserBlocked st now u).2 (u, now / 60) now) :=
    ensureActivity_inv _ now hInv1
  simp only [canSendMessage]
  split
  · exact hInv
  · split
    · exact hInv1
    · split
      · exact hInvE
      · split
        · exact hInvE
        · exact hInvE

theorem canSendMessage_allowed_lt {settings : SpamSettings} {st st' : SpamState} {now : Nat}
    {u g : String} (hen : settings.enabled = true)
    (hc : canSendMessage settings st now u g = (.allowed, st')) :
    ∃ a, alookup (u, now / 60) st'.userActivity = some a ∧
      a.count < settings.maxMessagesPerHour := by
  have h1 : (canSendMessage settings st now u g).1 = .allowed := by rw [hc]
  have h2 : st' = (canSendMessage settings st now u g).2 := by rw [hc]
  subst h2
  simp only [canSendMessage, hen, Bool.true_eq_false, if_false] at h1 ⊢
  by_cases hb : (isUserBlocked st now u).1 = true
  · simp [hb] at h1
  · simp only [hb, Bool.false_eq_true, if_false] at h1 ⊢
    set E := ensureActivity (isUserBlocked st now u).2 (u, now / 60) now with hE
    set A := (alookup (u, now / 60) E.userActivity).getD (freshActivity now) with hA
    by_cases hcnt : settings.maxMessagesPerHour ≤ A.count
    · simp [hcnt] at h1
    · simp only [hcnt, if_false] at h1 ⊢
      by_cases hdup : g ∈ A.groups ∧ 0 < A.count ∧ now - A.firstMessage < 5
      · simp [hdup] at h1
      · simp only [hdup, if_false]
        refine ⟨A, ?_, Nat.lt_of_not_le hcnt⟩
        rw [hA, hE, ensureActivity_lookup]
        simp

theorem recordMessageSent_inv {max : Nat} {st : SpamState} {now : Nat} {u g : String}
    {s : Bool} {a : Activity}
    (ha : alookup (u, now / 60) st.userActivity = some a)
    (hlt : a.count < max) (hInv : CountInv max st) :
    CountInv max (recordMessageSent st now u g s) := by
  simp only [recordMessageSent]
  rw [ensureActivity_of_some ha]
  simp only [ha, Option.getD_some]
  intro k' a' hk'
  by_cases hkk : k' = (u, now / 60)
  · subst hkk
    rw [alookup_aset_self] at hk'
    cases hk'
    exact hlt
  · rw [alookup_aset_ne _ _ _ _ hkk] at hk'
    exact hInv k' a' hk'

theorem stepAttempt_inv {settings : SpamSettings} (hen : settings.enabled = true)
    (acc : SpamState × List SendAttempt) (e : SendAttempt)
    (hInv : CountInv settings.maxMessagesPerHour acc.1) :
    CountInv settings.maxMessagesPerHour (stepAttempt settings acc e).1 := by
  obtain ⟨st, log⟩ := acc
  rcases hc : canSendMessage settings st e.t e.user e.group with ⟨r, st'⟩
  unfold stepAttempt
  simp only [hc]
  by_cases hr : r = CheckResult.allowed
  · subst hr
    simp only [if_true]
    obtain ⟨a, ha, hlt⟩ := canSendMessage_allowed_lt hen hc
    exact recordMessageSent_inv ha hlt (canSendMessage_inv hc hInv)
  · simp only [hr, if_false]
    exact canSendMessage_inv hc hInv

theorem runGuarded_inv {settings : SpamSettings} (hen : settings.enabled = true)
    (trace : List SendAttempt) (acc : SpamState × List SendAttempt)
    (hInv : CountInv settings.maxMessagesPerHour acc.1) :
    CountInv settings.maxMessagesPerHour (runGuarded settings acc trace).1 := by
  induction trace generalizing acc with
  | nil => exact hInv
  | cons e rest ih =>
    exact ih (stepAttempt settings acc e) (stepAttempt_inv hen acc e hInv)

/-- C1, counterexample.  With `maxMessagesPerHour = 2` and anti-spam
enabled, the four attempts of `c1trace` are each preceded by a
`canSendMessage` check returning allowed and each recorded via
`recordMessageSent` (the returned log equals the whole trace), yet the
rolling 60-minute window `[1, 61)` contains 4 recorded attempts,
exceeding the configured ceiling of 2: the counters are per fixed
calendar-hour bucket, not per rolling window. -/
theorem c1_rolling_window_exceeded :
    (runGuarded ⟨true, 2, 60⟩ (emptySpamState, []) c1trace).2 = c1trace ∧
    (⟨true, 2, 60⟩ : SpamSettings).maxMessagesPerHour <
      recordedInWindow (runGuarded ⟨true, 2, 60⟩ (emptySpamState, []) c1trace).2 "t" 1 := by
  decide

/-- C1 (amended): for every tenant, if anti-spam is enabled and every
send attempt is preceded by a `canSendMessage` check that returned
allowed and is recorded via `recordMessageSent`, then the number of
recorded send attempts in any fixed calendar-hour bucket never exceeds
the configured `maxMessagesPerHour` (the rolling 60-minute version is
refuted by `c1_rolling_window_exceeded`; a rolling window can contain up
to twice the ceiling). -/
theorem c1_bucket_count_bounded (settings : SpamSettings) (trace : List SendAttempt)
    (hen : settings.enabled = true) (u : String) (b : Nat) :
    bucketCount (runGuarded settings (emptySpamState, []) trace).1 u b ≤
      settings.maxMessagesPerHour := by
  have hInv0 : CountInv settings.maxMessagesPerHour emptySpamState := by
    intro k a hk
    simp [emptySpamState, alookup] at hk
  have h := runGuarded_inv hen trace (emptySpamState, []) hInv0
  unfold bucketCount
  rcases hl : alookup (u, b) (runGuarded settings (emptySpamState, []) trace).1.userActivity
    with _ | a
  · simp
  · simpa using h (u, b) a hl

/-- C1 witness: the amended bound evaluated on a concrete admitted
trace. -/
theorem c1_bucket_count_bounded_witness :
    (⟨true, 2, 60⟩ : SpamSettings).enabled = true ∧
    bucketCount (runGuarded ⟨true, 2, 60⟩ (emptySpamState, [])
      [⟨0, "w", "gw", true⟩]).1 "w" 0 ≤ 2 :=
  ⟨rfl, c1_bucket_count_bounded ⟨true, 2, 60⟩ [⟨0, "w", "gw", true⟩] rfl "w" 0⟩

/-- C7, counterexample.  A tenant at the ceiling (`maxMessagesPerHour = 1`,
one recorded send in the current hour bucket) is blocked via
`blockUser` until minute 1; at minute 2 real time exceeds the recorded
`unblockTime`, yet the next `canSendMessage` call returns the
`rateLimit` denial (and re-blocks), not `allowed`: expiry of the block
alone does not make admission return Allowed. -/
theorem c7_expired_block_not_allowed :
    1 < 2 ∧
    (alookup "t"
      (blockUser (recordMessageSent emptySpamState 0 "t" "g1" true) 0 "t" 1).blockedUsers).map
      (·.unblockTime) = some 1 ∧
    (canSendMessage ⟨true, 1, 60⟩
      (blockUser (recordMessageSent emptySpamState 0 "t" "g1" true) 0 "t" 1) 2 "t" "g2").1
      = .rateLimit ∧
    (canSendMessage ⟨true, 1, 60⟩
      (blockUser (recordMessageSent emptySpamState 0 "t" "g1" true) 0 "t" 1) 2 "t" "g2").1
      ≠ .allowed := by
  decide

/-- C7 (amended): after `blockUser(u, m)` at time `now`, the very next
`canSendMessage` call returns the blocked denial carrying the recorded
`unblockTime = now + m`; and once real time exceeds `unblockTime`, the
expired BlockRecord is removed lazily by the next check — no explicit
unblock call — and that check returns allowed provided the tenant's
current hour bucket has no activity (otherwise the hourly-ceiling or
duplicate-group checks may still deny, see
`c7_expired_block_not_allowed`). -/
theorem ensureActivity_none (st : SpamState) (key : String × Nat) (now : Nat)
    (h : alookup key st.userActivity = none) :
    ensureActivity st key now =
      { st with userActivity := aset key (freshActivity now) st.userActivity } := by
  unfold ensureActivity
  simp [h]

theorem c7_block_lifecycle (settings : SpamSettings) (st : SpamState)
    (now m t2 : Nat) (u g : String)
    (hen : settings.enabled = true) (hmax : 0 < settings.maxMessagesPerHour)
    (ht2 : now + m < t2)
    (hact : alookup (u, t2 / 60) st.userActivity = none) :
    (canSendMessage settings (blockUser st now u m) now u g).1 = .blockedRes (now + m) ∧
    (canSendMessage settings (blockUser st now u m) t2 u g).1 = .allowed ∧
    alookup u ((canSendMessage settings (blockUser st now u m) t2 u g).2).blockedUsers
      = none := by
  have hb1 : isUserBlocked (blockUser st now u m) now u = (true, blockUser st now u m) := by
    unfold isUserBlocked blockUser
    simp only [alookup_aset_self]
    rw [if_neg (by omega)]
  have hb2 : isUserBlocked (blockUser st now u m) t2 u =
      (false, ⟨st.userActivity, aremove u (aset u ⟨now, now + m⟩ st.blockedUsers)⟩) := by
    unfold isUserBlocked blockUser
    simp only [alookup_aset_self]
    rw [if_pos (by omega)]
  have hens : ensureActivity
      (⟨st.userActivity, aremove u (aset u ⟨now, now + m⟩ st.blockedUsers)⟩ : SpamState)
      (u, t2 / 60) t2 =
      (⟨aset (u, t2 / 60) (freshActivity t2) st.userActivity,
        aremove u (aset u ⟨now, now + m⟩ st.blockedUsers)⟩ : SpamState) :=
    ensureActivity_none _ _ _ hact
  refine ⟨?_, ?_, ?_⟩
  · simp only [canSendMessage, hen, Bool.true_eq_false, if_false, hb1, if_true]
    simp [blockUser, alookup_aset_self]
  · simp only [canSendMessage, hen, Bool.true_eq_false, if_false, hb2, Bool.false_eq_true,
      if_false, hens, alookup_aset_self, Option.getD_some]
    rw [if_neg (by simp only [freshActivity]; omega)]
    rw [if_neg (by simp [freshActivity])]
  · simp only [canSendMessage, hen, Bool.true_eq_false, if_false, hb2, Bool.false_eq_true,
      if_false, hens, alookup_aset_self, Option.getD_some]
    rw [if_neg (by simp only [freshActivity]; omega)]
    rw [if_neg (by simp [freshActivity])]
    exact alookup_aremove_self _ _

/-- C7 witness: the block lifecycle evaluated at a concrete tenant:
blocked for 60 minutes at minute 0, checked at minute 61. -/
theorem c7_block_lifecycle_witness :
    ((⟨true, 1, 60⟩ : SpamSettings).enabled = true ∧ 0 < 1 ∧ 0 + 60 < 61 ∧
      alookup ("t", 61 / 60) emptySpamState.userActivity = none) ∧
    ((canSendMessage ⟨true, 1, 60⟩ (blockUser emptySpamState 0 "t" 60) 0 "t" "g").1
        = .blockedRes (0 + 60) ∧
      (canSendMessage ⟨true, 1, 60⟩ (blockUser emptySpamState 0 "t" 60) 61 "t" "g").1
        = .allowed ∧
      alookup "t"
        ((canSendMessage ⟨true, 1, 60⟩ (blockUser emptySpamState 0 "t" 60) 61 "t" "g").2).blockedUsers
        = none) :=
  ⟨⟨rfl, by decide, by decide, by decide⟩,
    c7_block_lifecycle ⟨true, 1, 60⟩ emptySpamState 0 60 61 "t" "g" rfl (by decide) (by decide)
      (by decide)⟩

/-- C10: when the persisted anti-spam settings have `enabled = false`,
both the per-send admission check `canSendMessage` and the batch
pre-flight `validateBroadcast` return allowed/valid for every tenant,
group and state — including a state holding an active, unexpired
BlockRecord — and return the state unchanged (no counter, window or
block state is read into the decision or modified). -/
theorem c10_disabled_bypasses_all_checks (settings : SpamSettings)
    (hdis : settings.enabled = false) (st : SpamState) (now : Nat) (u g : String)
    (groups : List String) :
    canSendMessage settings st now u g = (.allowed, st) ∧
    validateBroadcast settings st now u groups = (.valid, st) := by
  unfold canSendMessage validateBroadcast
  simp [hdis]

/-- C10 witness: the disabled bypass evaluated on a tenant that holds an
unexpired BlockRecord (blocked from minute 0 to minute 100, checked at
minute 10). -/
theorem c10_disabled_bypasses_all_checks_witness :
    (⟨false, 10, 60⟩ : SpamSettings).enabled = false ∧
    (canSendMessage ⟨false, 10, 60⟩ ⟨[], [("t", ⟨0, 100⟩)]⟩ 10 "t" "g"
        = (.allowed, ⟨[], [("t", ⟨0, 100⟩)]⟩) ∧
      validateBroadcast ⟨false, 10, 60⟩ ⟨[], [("t", ⟨0, 100⟩)]⟩ 10 "t" ["g"]
        = (.valid, ⟨[], [("t", ⟨0, 100⟩)]⟩)) :=
  ⟨rfl, c10_disabled_bypasses_all_checks ⟨false, 10, 60⟩ rfl ⟨[], [("t", ⟨0, 100⟩)]⟩ 10 "t" "g"
    ["g"]⟩

theorem broadcastLoop_spec (outcome : Nat → SendOutcome) (gs : List String) :
    ∀ (i : Nat) (acc : DispatchResult),
      (broadcastLoop outcome i gs acc).1.total = acc.total ∧
      (broadcastLoop outcome i gs acc).1.sent = acc.sent + okCount outcome i gs ∧
      (broadcastLoop outcome i gs acc).1.failed = acc.failed + failCount outcome i gs ∧
      sendCalls (broadcastLoop outcome i gs acc).2 = gs ∧
      (broadcastLoop outcome i gs acc).2.filter isRateGuardCall = [] := by
  induction gs with
  | nil =>
    intro i acc
    simp [broadcastLoop, okCount, failCount, sendCalls]
  | cons g rest ih =>
    intro i acc
    simp only [broadcastLoop]
    rcases ho : outcome i with _ | e
    · obtain ⟨h1, h2, h3, h4, h5⟩ := ih (i + 1) { acc with sent := acc.sent + 1 }
      simp only [ho]
      refine ⟨h1, ?_, ?_, ?_, ?_⟩
      · rw [h2]
        simp [okCount, ho, SendOutcome.isOk]
        omega
      · rw [h3]
        simp [failCount, ho, SendOutcome.isOk]
      · simp only [sendCalls, List.filterMap_cons] at h4 ⊢
        simpa using h4
      · simpa [isRateGuardCall] using h5
    · obtain ⟨h1, h2, h3, h4, h5⟩ := ih (i + 1)
        { acc with failed := acc.failed + 1, errors := acc.errors ++ [(g, e)] }
      simp only [ho]
      refine ⟨h1, ?_, ?_, ?_, ?_⟩
      · rw [h2]
        simp [okCount, ho, SendOutcome.isOk]
      · rw [h3]
        simp [failCount, ho, SendOutcome.isOk]
        omega
      · simp only [sendCalls, List.filterMap_cons] at h4 ⊢
        simpa using h4
      · simpa [isRateGuardCall] using h5

theorem okCount_add_failCount (outcome : Nat → SendOutcome) (gs : List String) :
    ∀ i : Nat, okCount outcome i gs + failCount outcome i gs = gs.length := by
  induction gs with
  | nil => intro i; simp [okCount, failCount]
  | cons g rest ih =>
    intro i
    simp only [okCount, failCount, List.length_cons]
    rcases outcome i with _ | e <;> simp [SendOutcome.isOk] <;> rw [← ih (i + 1)] <;> omega

/-- C5: for every dispatch not rejected up front (a live session, so
`broadcastAd` returns a result instead of throwing), the result
satisfies `sent + failed = total` and `total` equals the number of
target groups listed in the campaign. -/
theorem c5_sent_plus_failed_eq_total (conn : Bool) (gs : List String)
    (outcome : Nat → SendOutcome) (r : DispatchResult) (calls : List DspCall)
    (h : broadcastAd conn gs outcome = .ok (r, calls)) :
    r.sent + r.failed = r.total ∧ r.total = gs.length := by
  cases conn with
  | false => simp [broadcastAd] at h
  | true =>
    unfold broadcastAd at h
    simp only [Bool.true_eq_false, if_false, Except.ok.injEq] at h
    obtain ⟨h1, h2, h3, -, -⟩ := broadcastLoop_spec outcome gs 0 ⟨gs.length, 0, 0, []⟩
    rw [h] at h1 h2 h3
    simp only at h1 h2 h3
    have hof := okCount_add_failCount outcome gs 0
    exact ⟨by omega, by omega⟩

/-- C5 witness: a two-group dispatch with one success and one failure
accounts `1 + 1 = 2`. -/
theorem c5_sent_plus_failed_eq_total_witness :
    broadcastAd true ["a", "b"] (fun i => if i = 0 then .ok else .fail "x")
      = .ok (⟨2, 1, 1, [("b", "x")]⟩,
        [.sendAttempt "a", .pacingDelay, .sendAttempt "b", .pacingDelay]) ∧
    ((1 : Nat) + 1 = 2 ∧ (2 : Nat) = 2) :=
  ⟨rfl,
    c5_sent_plus_failed_eq_total true ["a", "b"] (fun i => if i = 0 then .ok else .fail "x")
      ⟨2, 1, 1, [("b", "x")]⟩
      [.sendAttempt "a", .pacingDelay, .sendAttempt "b", .pacingDelay] rfl⟩

/-- C8: for every dispatch that obtained a live session, exactly one
send attempt is made per listed target group, in the campaign's listed
order (`sendCalls calls = gs`), and each attempt's outcome is recorded
independently: `sent` counts exactly the successful outcomes and
`failed` exactly the failed ones, for every outcome assignment — in
particular a failure at any position never prevents the attempts on the
remaining groups. -/
theorem c8_one_attempt_per_group_in_order (gs : List String) (outcome : Nat → SendOutcome)
    (r : DispatchResult) (calls : List DspCall)
    (h : broadcastAd true gs outcome = .ok (r, calls)) :
    sendCalls calls = gs ∧ r.sent = okCount outcome 0 gs ∧ r.failed = failCount outcome 0 gs := by
  unfold broadcastAd at h
  simp only [Bool.true_eq_false, if_false, Except.ok.injEq] at h
  obtain ⟨-, h2, h3, h4, -⟩ := broadcastLoop_spec outcome gs 0 ⟨gs.length, 0, 0, []⟩
  rw [h] at h2 h3 h4
  simp only at h2 h3 h4
  exact ⟨h4, by omega, by omega⟩

/-- C8 witness: five target groups with the second send failing — all
five attempts happen, in order, and the failure of group 2 is recorded
without aborting groups 3–5. -/
theorem c8_one_attempt_per_group_in_order_witness :
    broadcastAd true ["g1", "g2", "g3", "g4", "g5"]
        (fun i => if i = 1 then .fail "boom" else .ok)
      = .ok (⟨5, 4, 1, [("g2", "boom")]⟩,
        [.sendAttempt "g1", .pacingDelay, .sendAttempt "g2", .pacingDelay,
         .sendAttempt "g3", .pacingDelay, .sendAttempt "g4", .pacingDelay,
         .sendAttempt "g5", .pacingDelay]) ∧
    (sendCalls
        [.sendAttempt "g1", .pacingDelay, .sendAttempt "g2", .pacingDelay,
         .sendAttempt "g3", .pacingDelay, .sendAttempt "g4", .pacingDelay,
         .sendAttempt "g5", .pacingDelay] = ["g1", "g2", "g3", "g4", "g5"] ∧
      (4 : Nat) = okCount (fun i => if i = 1 then .fail "boom" else .ok) 0
        ["g1", "g2", "g3", "g4", "g5"] ∧
      (1 : Nat) = failCount (fun i => if i = 1 then .fail "boom" else .ok) 0
        ["g1", "g2", "g3", "g4", "g5"]) :=
  ⟨rfl,
    c8_one_attempt_per_group_in_order ["g1", "g2", "g3", "g4", "g5"]
      (fun i => if i = 1 then .fail "boom" else .ok) ⟨5, 4, 1, [("g2", "boom")]⟩
      [.sendAttempt "g1", .pacingDelay, .sendAttempt "g2", .pacingDelay,
       .sendAttempt "g3", .pacingDelay, .sendAttempt "g4", .pacingDelay,
       .sendAttempt "g5", .pacingDelay] rfl⟩

/-- C2: the dispatcher never consults the rate guard.  `executeAd` and
`broadcastAd` make no `validateBroadcast` pre-flight call and no
`recordMessageSent` call for any attempt (first conjunct: the
dispatcher's call trace contains no rate-guard call, for every input),
while send attempts do happen (second conjunct: a concrete connected
two-group dispatch performs both sends).  This contradicts the claim:
`validateBroadcast`, `canSendMessage` and `recordMessageSent` have no
callers anywhere in the repository. -/
theorem c2_dispatcher_never_consults_rate_guard :
    (∀ (conn : Bool) (now : Nat) (gs : List String) (outcome : Nat → SendOutcome)
      (stats : AdStats),
      ((executeAd conn now gs outcome stats).2.2).filter isRateGuardCall = []) ∧
    sendCalls (executeAd true 0 ["g1", "g2"] (fun _ => .ok) ⟨0, 0, none⟩).2.2
      = ["g1", "g2"] := by
  constructor
  · intro conn now gs outcome stats
    unfold executeAd broadcastAd
    by_cases hc : conn = false
    · simp [hc]
    · simp only [hc, if_false]
      exact (broadcastLoop_spec outcome gs 0 ⟨gs.length, 0, 0, []⟩).2.2.2.2
  · decide

/-- C3, counterexample.  Dispatching a two-group campaign with no live
session: `executeAd` returns no `DispatchResult` at all (`none`, first
component), rather than the claimed result with `total = 2`, `sent = 0`,
`failed = 2` and a `SessionUnavailable` reason — no such reason field
even exists; the accounting goes into the campaign stats instead and no
send attempt is made. -/
theorem c3_no_session_returns_no_result :
    executeAd false 0 ["g1", "g2"] (fun _ => .ok) ⟨0, 0, none⟩
      = (none, ⟨0, 0 + 2, some 0⟩, []) := by
  decide

/-- C3 (amended): for a campaign dispatched with no live session, the
dispatcher `executeAd` makes no send attempt, records all targets as
failed in the campaign stats (`failed := failed + total`, `sent`
unchanged), returns `none` in place of a `DispatchResult`, and does not
throw; `broadcastAd` itself, called without a live session, throws
`'WhatsApp não conectado'` — which `executeAd`'s up-front
`isUserConnected` guard avoids. -/
theorem c3_session_unavailable_accounting (now : Nat) (gs : List String)
    (outcome : Nat → SendOutcome) (stats : AdStats) :
    executeAd false now gs outcome stats
      = (none, ⟨stats.sent, stats.failed + gs.length, some now⟩, []) ∧
    broadcastAd false gs outcome = .error "WhatsApp não conectado" := by
  constructor <;> simp [executeAd, broadcastAd]

theorem countCalls_append (u : String) (l₁ l₂ : List String) :
    countCalls u (l₁ ++ l₂) = countCalls u l₁ + countCalls u l₂ := by
  induction l₁ with
  | nil => simp [countCalls]
  | cons v rest ih => simp [countCalls, ih]; omega

theorem disconnectUser_lookup (st : SessState) (u : String) :
    alookup u (disconnectUser st u).connections = none := by
  unfold disconnectUser
  rcases h : alookup u st.connections with _ | b
  · exact h
  · exact alookup_aremove_self _ _

theorem disconnectUser_pending (st : SessState) (u : String) :
    (disconnectUser st u).pending = st.pending := by
  unfold disconnectUser handleClose
  rcases h : alookup u st.connections with _ | b
  · rfl
  · simp [loggedOut, forbidden]

theorem disconnectUser_connectCalls (st : SessState) (u : String) :
    (disconnectUser st u).connectCalls = st.connectCalls := by
  unfold disconnectUser handleClose
  rcases h : alookup u st.connections with _ | b
  · rfl
  · simp [loggedOut, forbidden]

theorem connectUser_lookup_ne (st : SessState) (u v : String) (hvu : v ≠ u) :
    alookup u (connectUser st v).connections = alookup u st.connections := by
  unfold connectUser
  rcases h : alookup v st.connections with _ | b
  · simp only [h]
    exact alookup_aset_ne _ _ _ _ (fun hh => hvu hh.symm)
  · cases b
    · simp only [h]
      exact alookup_aset_ne _ _ _ _ (fun hh => hvu hh.symm)
    · simp only [h]

theorem connectUser_pending (st : SessState) (v : String) :
    (connectUser st v).pending = st.pending := by
  unfold connectUser
  rcases h : alookup v st.connections with _ | b
  · simp only [h]
  · cases b <;> simp only [h]

theorem connectUser_connectCalls (st : SessState) (v : String) :
    (connectUser st v).connectCalls = st.connectCalls ++ [v] := by
  unfold connectUser
  rcases h : alookup v st.connections with _ | b
  · simp only [h]
  · cases b <;> simp only [h]

theorem stepSess_pres (u : String) (st : SessState) (e : SessEvent)
    (hocc : eventCanOccur st e) (hne : e ≠ .connectReq u) (hInv : SessInv u st) :
    SessInv u (stepSess st e) ∧
      countCalls u (stepSess st e).connectCalls = countCalls u st.connectCalls := by
  obtain ⟨hconn, hpend⟩ := hInv
  cases e with
  | connectReq v =>
    have hvu : v ≠ u := fun h => hne (by rw [h])
    refine ⟨⟨?_, ?_⟩, ?_⟩
    · rw [show stepSess st (.connectReq v) = connectUser st v from rfl,
        connectUser_lookup_ne st u v hvu]
      exact hconn
    · rw [show stepSess st (.connectReq v) = connectUser st v from rfl, connectUser_pending]
      exact hpend
    · rw [show stepSess st (.connectReq v) = connectUser st v from rfl,
        connectUser_connectCalls, countCalls_append]
      simp [countCalls, hvu]
  | openEvt v =>
    have hvu : v ≠ u := by
      intro h
      subst h
      exact hocc hconn
    refine ⟨⟨?_, hpend⟩, rfl⟩
    rw [show (stepSess st (.openEvt v)).connections = aset v true st.connections from rfl,
      alookup_aset_ne _ _ _ _ (fun hh => hvu hh.symm)]
    exact hconn
  | closeEvt v code =>
    have hvu : v ≠ u := by
      intro h
      subst h
      exact hocc hconn
    have hconn' : alookup u (aremove v st.connections) = none := by
      rw [alookup_aremove_ne _ _ _ (fun hh => hvu hh.symm)]
      exact hconn
    refine ⟨⟨?_, ?_⟩, ?_⟩
    · show alookup u (handleClose st v code).connections = none
      unfold handleClose
      split
      · exact hconn'
      · exact hconn'
    · show u ∉ (handleClose st v code).pending
      unfold handleClose
      split
      · intro hmem
        rcases List.mem_append.mp hmem with hmem | hmem
        · exact hpend hmem
        · exact hvu (List.mem_singleton.mp hmem).symm
      · exact hpend
    · show countCalls u (handleClose st v code).connectCalls = _
      unfold handleClose
      split <;> rfl
  | fireReconnect v =>
    have hvmem : v ∈ st.pending := hocc
    have hvu : v ≠ u := fun h => hpend (h ▸ hvmem)
    rw [show stepSess st (.fireReconnect v)
      = if v ∈ st.pending then connectUser { st with pending := st.pending.erase v } v else st
      from rfl, if_pos hvmem]
    refine ⟨⟨?_, ?_⟩, ?_⟩
    · rw [connectUser_lookup_ne _ u v hvu]
      exact hconn
    · rw [connectUser_pending]
      intro hmem
      exact hpend (List.mem_of_mem_erase hmem)
    · rw [connectUser_connectCalls, countCalls_append]
      simp [countCalls, hvu]

theorem runSess_pres (u : String) (trace : List SessEvent) :
    ∀ st : SessState, ValidTrace st trace → SessEvent.connectReq u ∉ trace →
      SessInv u st →
      SessInv u (runSess st trace) ∧
        countCalls u (runSess st trace).connectCalls = countCalls u st.connectCalls := by
  induction trace with
  | nil => exact fun st _ _ hInv => ⟨hInv, rfl⟩
  | cons e rest ih =>
    intro st hv hnc hInv
    obtain ⟨hocc, hv'⟩ := hv
    have hne : e ≠ .connectReq u := fun h => hnc (h ▸ List.mem_cons_self e rest)
    have hnc' : SessEvent.connectReq u ∉ rest := fun h => hnc (List.mem_cons_of_mem e h)
    obtain ⟨hInv', hcount⟩ := stepSess_pres u st e hocc hne hInv
    obtain ⟨hInv'', hcount'⟩ := ih (stepSess st e) hv' hnc' hInv'
    exact ⟨hInv'', hcount'.trans hcount⟩

/-- C9, counterexample.  A reconnect timer scheduled before the
disconnect (tenant `"t"` is in `pending`) survives `disconnectUser`:
when it fires — with no fresh explicit connect request in the trace —
`connectUser("t")` is invoked, i.e. an automatic reconnection attempt
is made for the tenant after `disconnect` completed.  `disconnectUser`
never cancels pending reconnect timers. -/
theorem c9_pending_timer_reconnects_after_disconnect :
    ValidTrace (disconnectUser ⟨[("t", true)], ["t"], []⟩ "t") [.fireReconnect "t"] ∧
    SessEvent.connectReq "t" ∉ ([.fireReconnect "t"] : List SessEvent) ∧
    (runSess (disconnectUser ⟨[("t", true)], ["t"], []⟩ "t") [.fireReconnect "t"]).connectCalls
      = ["t"] := by
  decide

/-- C9 (amended): after `disconnectUser(u)` completes — provided no
reconnect was already pending for `u` at that moment — the tenant's
connection state reports disconnected, the explicit logout is terminal
(its `close` event carries `loggedOut`, so no reconnect is scheduled:
`pending` is unchanged), and along every valid subsequent event trace
containing no fresh explicit connect request for `u`, the state keeps
reporting disconnected and no `connectUser(u)` call is ever made. -/
theorem c9_disconnect_is_terminal (st : SessState) (u : String) (trace : List SessEvent)
    (hpend : u ∉ st.pending)
    (hv : ValidTrace (disconnectUser st u) trace)
    (hnc : SessEvent.connectReq u ∉ trace) :
    isUserConnected (disconnectUser st u) u = false ∧
    (disconnectUser st u).pending = st.pending ∧
    isUserConnected (runSess (disconnectUser st u) trace) u = false ∧
    u ∉ (runSess (disconnectUser st u) trace).pending ∧
    countCalls u (runSess (disconnectUser st u) trace).connectCalls
      = countCalls u st.connectCalls := by
  have hconn := disconnectUser_lookup st u
  have hpend' : u ∉ (disconnectUser st u).pending := by
    rw [disconnectUser_pending]
    exact hpend
  obtain ⟨⟨hc2, hp2⟩, hcount⟩ := runSess_pres u trace (disconnectUser st u) hv hnc ⟨hconn, hpend'⟩
  refine ⟨?_, disconnectUser_pending st u, ?_, hp2, ?_⟩
  · unfold isUserConnected
    rw [hconn]
    rfl
  · unfold isUserConnected
    rw [hc2]
    rfl
  · rw [hcount, disconnectUser_connectCalls]

/-- C9 witness: a connected tenant `"t"` is disconnected; afterwards an
unrelated tenant `"v"` connects and comes online; `"t"` stays
disconnected and no reconnect attempt for `"t"` occurs. -/
theorem c9_disconnect_is_terminal_witness :
    ("t" ∉ (⟨[("t", true)], [], []⟩ : SessState).pending ∧
      ValidTrace (disconnectUser ⟨[("t", true)], [], []⟩ "t")
        [.connectReq "v", .openEvt "v"] ∧
      SessEvent.connectReq "t" ∉ ([.connectReq "v", .openEvt "v"] : List SessEvent)) ∧
    (isUserConnected (disconnectUser ⟨[("t", true)], [], []⟩ "t") "t" = false ∧
      (disconnectUser ⟨[("t", true)], [], []⟩ "t").pending
        = (⟨[("t", true)], [], []⟩ : SessState).pending ∧
      isUserConnected (runSess (disconnectUser ⟨[("t", true)], [], []⟩ "t")
        [.connectReq "v", .openEvt "v"]) "t" = false ∧
      "t" ∉ (runSess (disconnectUser ⟨[("t", true)], [], []⟩ "t")
        [.connectReq "v", .openEvt "v"]).pending ∧
      countCalls "t" (runSess (disconnectUser ⟨[("t", true)], [], []⟩ "t")
        [.connectReq "v", .openEvt "v"]).connectCalls
        = countCalls "t" (⟨[("t", true)], [], []⟩ : SessState).connectCalls) :=
  ⟨⟨by decide, by decide, by decide⟩,
    c9_disconnect_is_terminal ⟨[("t", true)], [], []⟩ "t" [.connectReq "v", .openEvt "v"]
      (by decide) (by decide) (by decide)⟩

theorem daysInMonthB_pos (l : Bool) (m : Nat) : 1 ≤ daysInMonthB l m := by
  unfold daysInMonthB
  split_ifs <;> omega

theorem daysInMonthB_cross (l l' : Bool) (m : Nat) :
    daysInMonthB l m ≤ daysInMonthB l' m + 1 := by
  unfold daysInMonthB
  split_ifs <;> omega

theorem daysInMonthB_one (l : Bool) : daysInMonthB l 1 = 31 := by
  cases l <;> rfl

theorem daysInMonthB_twelve (l : Bool) : daysInMonthB l 12 = 31 := by
  cases l <;> rfl

theorem daysBeforeMonthB_one (l : Bool) : daysBeforeMonthB l 1 = 0 := rfl

theorem daysBeforeMonthB_succ (l : Bool) (m : Nat) (hm : 1 ≤ m) :
    daysBeforeMonthB l (m + 1) = daysBeforeMonthB l m + daysInMonthB l m := by
  obtain ⟨m', rfl⟩ : ∃ m', m = m' + 1 := ⟨m - 1, by omega⟩
  rfl

theorem daysBeforeMonthB_twelve (l : Bool) :
    daysBeforeMonthB l 12 = (if l then 335 else 334) := by
  cases l <;> decide

theorem daysBeforeMonthB_thirteen (l : Bool) :
    daysBeforeMonthB l 13 = (if l then 366 else 365) := by
  cases l <;> decide

theorem daysBeforeMonthB_cross (l l' : Bool) :
    ∀ m, m ≤ 13 → daysBeforeMonthB l m ≤ daysBeforeMonthB l' m + 1 := by
  cases l <;> cases l' <;> decide

set_option maxHeartbeats 1000000 in
theorem daysBeforeYear_succ (y : Nat) :
    daysBeforeYear (y + 1) = daysBeforeYear y + daysInYear y := by
  unfold daysBeforeYear leapsBefore daysInYear isLeap
  by_cases h4 : y % 4 = 0 <;> by_cases h100 : y % 100 = 0 <;> by_cases h400 : y % 400 = 0 <;>
    simp [h4, h100, h400] <;> omega

theorem daysInYear_ge (y : Nat) : 365 ≤ daysInYear y := by
  unfold daysInYear
  split <;> omega

theorem daysInYear_eq_dBMB (y : Nat) : daysInYear y = daysBeforeMonthB (isLeap y) 12 + 31 := by
  unfold daysInYear
  cases h : isLeap y <;> decide

theorem addDay_valid_toDays (d : DateTime) (hv : ValidDT d) :
    ValidDT (addDay d) ∧ toDays (addDay d) = toDays d + 1 := by
  obtain ⟨h1, h2, h3, h4, h5, h6⟩ := hv
  unfold daysInMonth at h4
  unfold addDay daysInMonth
  by_cases hd : d.day < daysInMonthB (isLeap d.year) d.month
  · rw [if_pos hd]
    constructor
    · simp only [ValidDT, daysInMonth]
      omega
    · simp only [toDays]
      omega
  · rw [if_neg hd]
    by_cases hm : d.month < 12
    · rw [if_pos hm]
      have hsucc := daysBeforeMonthB_succ (isLeap d.year) d.month h1
      have hpos := daysInMonthB_pos (isLeap d.year) (d.month + 1)
      constructor
      · simp only [ValidDT, daysInMonth]
        omega
      · simp only [toDays]
        rw [hsucc]
        omega
    · rw [if_neg hm]
      have hm12 : d.month = 12 := by omega
      have h31 := daysInMonthB_twelve (isLeap d.year)
      have hpos := daysInMonthB_pos (isLeap (d.year + 1)) 1
      constructor
      · simp only [ValidDT, daysInMonth]
        omega
      · simp only [toDays]
        rw [hm12] at hd h4
        rw [daysBeforeYear_succ, daysInYear_eq_dBMB, hm12,
          daysBeforeMonthB_one (isLeap (d.year + 1))]
        omega

theorem toMinutes_addDay (d : DateTime) (hv : ValidDT d) :
    toMinutes (addDay d) = toMinutes d + 1440 := by
  have h := (addDay_valid_toDays d hv).2
  have hh : (addDay d).hour = d.hour := by
    unfold addDay
    split_ifs <;> rfl
  have hm : (addDay d).minute = d.minute := by
    unfold addDay
    split_ifs <;> rfl
  simp only [toMinutes]
  rw [h, hh, hm]
  ring

theorem addDay_step (d : DateTime) (hv : ValidDT d) :
    ValidDT (addDay d) ∧ toMinutes d < toMinutes (addDay d) := by
  refine ⟨(addDay_valid_toDays d hv).1, ?_⟩
  rw [toMinutes_addDay d hv]
  omega

theorem addWeek_step (d : DateTime) (hv : ValidDT d) :
    ValidDT (addWeek d) ∧ toMinutes d < toMinutes (addWeek d) := by
  obtain ⟨v1, m1⟩ := addDay_step d hv
  obtain ⟨v2, m2⟩ := addDay_step _ v1
  obtain ⟨v3, m3⟩ := addDay_step _ v2
  obtain ⟨v4, m4⟩ := addDay_step _ v3
  obtain ⟨v5, m5⟩ := addDay_step _ v4
  obtain ⟨v6, m6⟩ := addDay_step _ v5
  obtain ⟨v7, m7⟩ := addDay_step _ v6
  exact ⟨v7, by unfold addWeek; omega⟩

theorem toDays_addWeek (d : DateTime) (hv : ValidDT d) :
    toDays (addWeek d) = toDays d + 7 := by
  obtain ⟨v1, d1⟩ := addDay_valid_toDays d hv
  obtain ⟨v2, d2⟩ := addDay_valid_toDays _ v1
  obtain ⟨v3, d3⟩ := addDay_valid_toDays _ v2
  obtain ⟨v4, d4⟩ := addDay_valid_toDays _ v3
  obtain ⟨v5, d5⟩ := addDay_valid_toDays _ v4
  obtain ⟨v6, d6⟩ := addDay_valid_toDays _ v5
  obtain ⟨v7, d7⟩ := addDay_valid_toDays _ v6
  unfold addWeek
  omega

theorem toMinutes_lt_of_toDays_lt {d e : DateTime} (h : toDays d < toDays e)
    (hh : d.hour < 24) (hm : d.minute < 60) : toMinutes d < toMinutes e := by
  unfold toMinutes
  omega

theorem addMonth_valid_toDays (d : DateTime) (hv : ValidDT d) :
    ValidDT (addMonth d) ∧ toDays d < toDays (addMonth d) := by
  obtain ⟨h1, h2, h3, h4, h5, h6⟩ := hv
  unfold daysInMonth at h4
  unfold addMonth daysInMonth
  by_cases hm : d.month < 12
  · rw [if_pos hm]
    have hsucc := daysBeforeMonthB_succ (isLeap d.year) d.month h1
    have hpos := daysInMonthB_pos (isLeap d.year) (d.month + 1)
    constructor
    · simp only [ValidDT, daysInMonth]
      omega
    · simp only [toDays]
      rw [hsucc]
      omega
  · rw [if_neg hm]
    have hm12 : d.month = 12 := by omega
    have h31 := daysInMonthB_twelve (isLeap d.year)
    have h31' := daysInMonthB_one (isLeap (d.year + 1))
    constructor
    · simp only [ValidDT, daysInMonth]
      omega
    · simp only [toDays]
      rw [hm12] at h4
      rw [daysBeforeYear_succ, daysInYear_eq_dBMB, hm12,
        daysBeforeMonthB_one (isLeap (d.year + 1))]
      omega

theorem addMonth_step (d : DateTime) (hv : ValidDT d) :
    ValidDT (addMonth d) ∧ toMinutes d < toMinutes (addMonth d) := by
  obtain ⟨hv2, hlt⟩ := addMonth_valid_toDays d hv
  exact ⟨hv2, toMinutes_lt_of_toDays_lt hlt hv.2.2.2.2.1 hv.2.2.2.2.2⟩

theorem addYear_valid_toDays (d : DateTime) (hv : ValidDT d) :
    ValidDT (addYear d) ∧ toDays d < toDays (addYear d) := by
  obtain ⟨h1, h2, h3, h4, h5, h6⟩ := hv
  unfold daysInMonth at h4
  unfold addYear daysInMonth
  have hpos := daysInMonthB_pos (isLeap (d.year + 1)) d.month
  have hcross := daysInMonthB_cross (isLeap d.year) (isLeap (d.year + 1)) d.month
  have hbm := daysBeforeMonthB_cross (isLeap d.year) (isLeap (d.year + 1)) d.month (by omega)
  have hIY := daysInYear_ge d.year
  constructor
  · simp only [ValidDT, daysInMonth]
    omega
  · simp only [toDays]
    rw [daysBeforeYear_succ]
    omega

theorem addYear_step (d : DateTime) (hv : ValidDT d) :
    ValidDT (addYear d) ∧ toMinutes d < toMinutes (addYear d) := by
  obtain ⟨hv2, hlt⟩ := addYear_valid_toDays d hv
  exact ⟨hv2, toMinutes_lt_of_toDays_lt hlt hv.2.2.2.2.1 hv.2.2.2.2.2⟩

theorem advanceWhileBefore_spec (s : DateTime → DateTime)
    (hs : ∀ d, ValidDT d → ValidDT (s d) ∧ toMinutes d < toMinutes (s d)) (now : Nat) :
    ∀ (fuel : Nat) (d : DateTime), ValidDT d → now ≤ toMinutes d + fuel →
      ∃ k, advanceWhileBefore s now fuel d = s^[k] d ∧
        ValidDT (s^[k] d) ∧ now ≤ toMinutes (s^[k] d) ∧
        ∀ j < k, toMinutes (s^[j] d) < now := by
  intro fuel
  induction fuel with
  | zero =>
    intro d hv hb
    refine ⟨0, rfl, hv, by simpa using hb, ?_⟩
    intro j hj
    omega
  | succ fuel ih =>
    intro d hv hb
    by_cases h : toMinutes d < now
    · obtain ⟨hvs, hlt⟩ := hs d hv
      obtain ⟨k, hk, hkv, hkn, hkj⟩ := ih (s d) hvs (by omega)
      have hstep : advanceWhileBefore s now (fuel + 1) d
          = advanceWhileBefore s now fuel (s d) := by
        show (if toMinutes d < now then advanceWhileBefore s now fuel (s d) else d) = _
        rw [if_pos h]
      refine ⟨k + 1, ?_, ?_, ?_, ?_⟩
      · rw [hstep, hk, ← Function.iterate_succ_apply]
      · rw [Function.iterate_succ_apply]
        exact hkv
      · rw [Function.iterate_succ_apply]
        exact hkn
      · intro j hj
        cases j with
        | zero => simpa using h
        | succ j' =>
          rw [Function.iterate_succ_apply]
          exact hkj j' (by omega)
    · refine ⟨0, ?_, hv, by simp only [Function.iterate_zero_apply]; omega, ?_⟩
      · show (if toMinutes d < now then advanceWhileBefore s now fuel (s d) else d) = s^[0] d
        rw [if_neg h]
        rfl
      · intro j hj
        omega

/-- C6, counterexample.  Queried exactly at the instant of the next
daily occurrence (`now` = 2025-01-02 10:00 for an anchor of 2025-01-01
10:00), `getNextExecutionTime` returns that very instant — a time that
is **not** strictly in the future (`¬ now < toMinutes r`); likewise,
queried exactly at the anchor's own fire instant it returns the anchor
unadvanced.  The loop stops at the first occurrence not strictly
before `now`, which may equal `now`. -/
theorem c6_next_time_can_equal_now :
    getNextExecutionTime .daily ⟨2025, 1, 1, 10, 0⟩ (toMinutes ⟨2025, 1, 2, 10, 0⟩)
      = some ⟨2025, 1, 2, 10, 0⟩ ∧
    ¬ toMinutes (⟨2025, 1, 2, 10, 0⟩ : DateTime) < toMinutes (⟨2025, 1, 2, 10, 0⟩ : DateTime) ∧
    getNextExecutionTime .daily ⟨2025, 1, 1, 10, 0⟩ (toMinutes ⟨2025, 1, 1, 10, 0⟩)
      = some ⟨2025, 1, 1, 10, 0⟩ := by
  decide

/-- C6 (amended): for every recurring campaign with a valid anchor, the
computed next fire time is the anchor advanced iteratively by exactly
one recurrence unit (daily +1 day, weekly +1 week = +7 days preserving
the weekday, monthly +1 month clamped to the last valid day-of-month,
yearly +1 year) until the first occurrence that is **not strictly
before** `now` (it may equal `now` exactly, see
`c6_next_time_can_equal_now`), skipping the missed intermediate
occurrences (every earlier iterate is strictly before `now`); in
particular, for a daily campaign anchored 2025-01-01 10:00 and queried
one minute after the firing, the next fire time is exactly 2025-01-02
10:00, and adding one month to 2025-01-31 clamps to 2025-02-28. -/
theorem c6_next_occurrence_computation :
    (∀ (rep : RepeatKind) (anchor : DateTime) (now : Nat) (r : DateTime),
      rep ≠ .once → ValidDT anchor → getNextExecutionTime rep anchor now = some r →
      ∃ k, r = (stepOf rep)^[k] anchor ∧ ValidDT r ∧ now ≤ toMinutes r ∧
        ∀ j < k, toMinutes ((stepOf rep)^[j] anchor) < now) ∧
    (∀ d : DateTime, ValidDT d → toDays (addWeek d) % 7 = toDays d % 7) ∧
    addMonth ⟨2025, 1, 31, 10, 0⟩ = ⟨2025, 2, 28, 10, 0⟩ ∧
    getNextExecutionTime .daily ⟨2025, 1, 1, 10, 0⟩ (toMinutes ⟨2025, 1, 1, 10, 1⟩)
      = some ⟨2025, 1, 2, 10, 0⟩ := by
  refine ⟨?_, ?_, by decide, by decide⟩
  · intro rep anchor now r hro hv hr
    have main : ∀ s : DateTime → DateTime,
        (∀ d, ValidDT d → ValidDT (s d) ∧ toMinutes d < toMinutes (s d)) →
        advanceWhileBefore s now (now - toMinutes anchor + 1) anchor = r →
        ∃ k, r = s^[k] anchor ∧ ValidDT r ∧ now ≤ toMinutes r ∧
          ∀ j < k, toMinutes (s^[j] anchor) < now := by
      intro s hs hr'
      obtain ⟨k, hk, hkv, hkn, hkj⟩ :=
        advanceWhileBefore_spec s hs now (now - toMinutes anchor + 1) anchor hv (by omega)
      have hre : r = s^[k] anchor := by rw [← hr', hk]
      refine ⟨k, hre, ?_, ?_, hkj⟩
      · rw [hre]
        exact hkv
      · rw [hre]
        exact hkn
    cases rep with
    | once => exact absurd rfl hro
    | daily =>
      simp only [getNextExecutionTime, Option.some.injEq] at hr
      simpa only [stepOf] using main addDay addDay_step hr
    | weekly =>
      simp only [getNextExecutionTime, Option.some.injEq] at hr
      simpa only [stepOf] using main addWeek addWeek_step hr
    | monthly =>
      simp only [getNextExecutionTime, Option.some.injEq] at hr
      simpa only [stepOf] using main addMonth addMonth_step hr
    | yearly =>
      simp only [getNextExecutionTime, Option.some.injEq] at hr
      simpa only [stepOf] using main addYear addYear_step hr
  · intro d hvd
    rw [toDays_addWeek d hvd]
    omega

/-- C6 witness: the characterization evaluated at the daily campaign
anchored 2025-01-01 10:00, queried at 2025-01-01 10:01. -/
theorem c6_next_occurrence_computation_witness :
    (RepeatKind.daily ≠ RepeatKind.once ∧ ValidDT ⟨2025, 1, 1, 10, 0⟩ ∧
      getNextExecutionTime .daily ⟨2025, 1, 1, 10, 0⟩ (toMinutes ⟨2025, 1, 1, 10, 1⟩)
        = some ⟨2025, 1, 2, 10, 0⟩) ∧
    (∃ k, (⟨2025, 1, 2, 10, 0⟩ : DateTime) = (stepOf .daily)^[k] ⟨2025, 1, 1, 10, 0⟩ ∧
      ValidDT ⟨2025, 1, 2, 10, 0⟩ ∧
      toMinutes (⟨2025, 1, 1, 10, 1⟩ : DateTime) ≤ toMinutes (⟨2025, 1, 2, 10, 0⟩ : DateTime) ∧
      ∀ j < k, toMinutes ((stepOf .daily)^[j] ⟨2025, 1, 1, 10, 0⟩)
        < toMinutes (⟨2025, 1, 1, 10, 1⟩ : DateTime)) :=
  ⟨⟨by decide, by decide, by decide⟩,
    c6_next_occurrence_computation.1 .daily ⟨2025, 1, 1, 10, 0⟩
      (toMinutes ⟨2025, 1, 1, 10, 1⟩) ⟨2025, 1, 2, 10, 0⟩ (by decide) (by decide) (by decide)⟩

/-- C4: a `once` campaign whose date/time lies in the past (anchor
2025-01-01 10:00, registered at 2025-01-02 10:00) is **silently
skipped** by `scheduleAd` — the method logs a warning and returns
`undefined`, creating no ScheduleEntry, and the caller (the POST
`/api/ads` route) still reports success, so no `InvalidSchedule`
rejection ever reaches the caller — even though the scheduler's own
`validateSchedule` classifies exactly this input as invalid
('Não é possível agendar para o passado') and is never called. -/
theorem c4_past_schedule_silently_skipped :
    scheduleAd .once (some (2025, 1, 1)) (some (10, 0)) "ad1"
        (toMinutes ⟨2025, 1, 2, 10, 0⟩) [] = (.skippedPast, []) ∧
    validateSchedule (some (2025, 1, 1)) (some (10, 0)) (toMinutes ⟨2025, 1, 2, 10, 0⟩)
      = .errPast := by
  decide

end Ads
